import Mathlib

/-!
Shallow embedding of `analyze_trex.py`: a linear script that loads a
paleontological occurrence CSV, filters rows mentioning Tyrannosaurus rex,
logs matches, extracts discovery years from free-text dates, renders a map
and a timeline, and writes the filtered rows to a CSV.

Modelling conventions:
* text is `List Char` (Strings appear only at API boundaries);
* the script's regular expressions are translated into explicit positional
  matchers (ASCII fragments of `\d`, `\s`, `str.lower`);
* a pandas frame is a header of column names plus rows of cell values;
  numeric cells are modelled as integers;
* the CSV writer/reader pair (`to_csv` / `read_csv`) is modelled with
  RFC-4180 minimal quoting: a field is quoted when it contains a delimiter,
  a quote, or a line-break character, and quotes are doubled; the trailing
  newline written by pandas and its skipping of that blank tail cancel, so
  records are joined without a trailing newline;
* exceptions are modelled with `Except`: a builder's body returns a value or
  an error, and the builder's `try/except` wrapper turns the error into a
  logged-error result.
-/

/-- Cell values of the data table: a string, a number (numeric cells are
modelled as integers) or the missing value (pandas NaN / None). -/
inductive Value where
  | str (s : String)
  | num (n : Int)
  | null
deriving DecidableEq

/-- Models `pd.isna`: true exactly on the missing value. -/
def isna : Value → Bool
  | .null => true
  | _ => false

/-- Models `isinstance(text, str)`. -/
def isStrVal : Value → Bool
  | .str _ => true
  | _ => false

/-- ASCII fragment of the regex class `\s` (also `str()` whitespace). -/
def isWsChar (c : Char) : Bool :=
  c = ' ' || c = '\t' || c = '\n' || c = '\r' || c = Char.ofNat 11 || c = Char.ofNat 12

/-- Models `str.lower` (ASCII fragment). -/
def lowerStr (s : List Char) : List Char := s.map Char.toLower

/-- Decimal digits of a natural number, as characters. -/
def natChars (n : Nat) : List Char := Nat.toDigits 10 n

/-- Models Python `str` of an integer. -/
def intChars (n : Int) : List Char :=
  if n < 0 then '-' :: natChars n.natAbs else natChars n.natAbs

/-- Models Python `str()` of a cell value (only applied after an `isna`
guard, so the `null` branch is never reached by the script). -/
def pyStr : Value → List Char
  | .str s => s.data
  | .num n => intChars n
  | .null => ['n', 'a', 'n']

/-- Does the pattern `p` occur literally at the head of `l`? -/
def startsWithL : List Char → List Char → Bool
  | [], _ => true
  | _ :: _, [] => false
  | p :: ps, c :: cs => p = c && startsWithL ps cs

/-- Models `re.search` of a positional Boolean matcher: try every start
position, left to right (including the empty suffix). -/
def searchB (f : List Char → Bool) : List Char → Bool
  | [] => f []
  | c :: cs => f (c :: cs) || searchB f cs

/-- Matcher for `t[-\s]?rex` anchored at the current position: a `t`, an
optional single hyphen or whitespace character, then `rex`. -/
def p1At : List Char → Bool
  | 't' :: rest =>
      startsWithL ['r', 'e', 'x'] rest ||
      (match rest with
       | c :: rest2 => (c = '-' || isWsChar c) && startsWithL ['r', 'e', 'x'] rest2
       | [] => false)
  | _ => false

/-- Matcher for `tyrannosaurus` anchored at the current position. -/
def p2At (l : List Char) : Bool :=
  startsWithL ['t', 'y', 'r', 'a', 'n', 'n', 'o', 's', 'a', 'u', 'r', 'u', 's'] l

/-- Matcher for `t\.*\s*rexus` anchored at the current position.  The two
greedy stars are followed by the literal `rexus`, whose first character is
neither a dot nor whitespace, so backtracking can never help and the greedy
reading (maximal run of dots, then maximal run of whitespace) is exact. -/
def p3At : List Char → Bool
  | 't' :: rest =>
      startsWithL ['r', 'e', 'x', 'u', 's']
        ((rest.dropWhile (fun c => c = '.')).dropWhile isWsChar)
  | _ => false

/-- Matcher for `tyrant` anchored at the current position. -/
def p4At (l : List Char) : Bool :=
  startsWithL ['t', 'y', 'r', 'a', 'n', 't'] l

/-- Models `contains_trex`: false for any non-string value; otherwise
lower-case the text and search it for any of the four patterns. -/
def contains_trex (v : Value) : Bool :=
  match v with
  | .str s =>
      let t := lowerStr s.data
      searchB p1At t || searchB p2At t || searchB p3At t || searchB p4At t
  | _ => false

/-- The fixed candidate columns scanned for taxonomic matches. -/
def taxonomic_columns : List String :=
  ["identified_name", "identified_rank", "accepted_name", "accepted_rank",
   "phylum", "class", "order", "family", "genus"]

/-- A pandas frame: a header of column names and rows of cell values. -/
structure DataFrame where
  header : List String
  rows : List (List Value)
deriving DecidableEq

/-- Cell of a row under a column name (rows are positional; a name absent
from the header yields the missing value in this model). -/
def lookupCol (header : List String) (row : List Value) (c : String) : Value :=
  match header.findIdx? (fun h => h = c) with
  | some i => row.getD i Value.null
  | none => Value.null

/-- Column `c` of the frame, as the list of its cells. -/
def colVals (df : DataFrame) (c : String) : List Value :=
  df.rows.map (fun r => lookupCol df.header r c)

/-- Models `df[taxonomic_columns].apply(lambda x: x.apply(contains_trex))`:
one Boolean column per candidate column. -/
def boolCols (df : DataFrame) : List (List Bool) :=
  taxonomic_columns.map (fun c => (colVals df c).map contains_trex)

/-- Models `.any(axis=1)` over the Boolean columns: one entry per row, true
when some candidate column matched in that row. -/
def trex_mask (df : DataFrame) : List Bool :=
  (List.range df.rows.length).map (fun i => (boolCols df).any (fun col => col.getD i false))

/-- Models `trex_records = df[trex_mask]`: the rows selected by the mask. -/
def trex_records (df : DataFrame) : List (List Value) :=
  ((df.rows.zip (trex_mask df)).filter (fun p => p.2)).map (fun p => p.1)

/-- Row-wise form of the mask: does any candidate column of this row match? -/
def rowMatch (header : List String) (r : List Value) : Bool :=
  taxonomic_columns.any (fun c => contains_trex (lookupCol header r c))

/-- Matcher for `(\d{4})` anchored at the current position: four consecutive
digits; the captured group is those four characters. -/
def digit4 : List Char → Option (List Char)
  | a :: b :: c :: d :: _ =>
      if a.isDigit && b.isDigit && c.isDigit && d.isDigit then some [a, b, c, d]
      else none
  | _ => none

/-- Matcher for `(\d{4})` (first pattern of `extract_years`). -/
def try1At : List Char → Option (List Char) := digit4

/-- Matcher for `(\d{4})-\d{4}` anchored at the current position. -/
def try2At (l : List Char) : Option (List Char) :=
  match digit4 l with
  | some g =>
      if (l.drop 4).head? = some '-' && (digit4 (l.drop 5)).isSome then some g else none
  | none => none

/-- Matcher for `(\d{4})–\d{4}` (en dash) anchored at the current position. -/
def try3At (l : List Char) : Option (List Char) :=
  match digit4 l with
  | some g =>
      if (l.drop 4).head? = some '–' && (digit4 (l.drop 5)).isSome then some g else none
  | none => none

/-- Matcher for `(\d{4})\s*,` anchored at the current position.  The greedy
`\s*` is followed by a comma, which is not whitespace, so the greedy reading
(maximal whitespace run, then a comma) is exact. -/
def try4At (l : List Char) : Option (List Char) :=
  match digit4 l with
  | some g =>
      if ((l.drop 4).dropWhile isWsChar).head? = some ',' then some g else none
  | none => none

/-- Models `re.search` of a capturing matcher: the leftmost match wins. -/
def searchO (f : List Char → Option (List Char)) : List Char → Option (List Char)
  | [] => f []
  | c :: cs =>
      match f (c :: cs) with
      | some g => some g
      | none => searchO f cs

/-- Integer value of a digit string (models `int` on a regex group). -/
def digitsVal (l : List Char) : Int :=
  l.foldl (fun acc c => 10 * acc + ((c.toNat : Int) - 48)) 0

/-- Models `extract_years`: absent on a missing value, otherwise the four
patterns are attempted in order on the text form and the first successful
search yields its captured group as an integer. -/
def extract_years (v : Value) : Option Int :=
  if isna v then none
  else
    let s := pyStr v
    match searchO try1At s with
    | some g => some (digitsVal g)
    | none =>
      match searchO try2At s with
      | some g => some (digitsVal g)
      | none =>
        match searchO try3At s with
        | some g => some (digitsVal g)
        | none =>
          match searchO try4At s with
          | some g => some (digitsVal g)
          | none => none

/-- Modelled from the claim being checked against `extract_years`: the
integer value of the first contiguous four-digit window in the text, found
by scanning start positions left to right. -/
def firstWindow4 : List Char → Option (List Char)
  | [] => none
  | c :: cs =>
      match digit4 (c :: cs) with
      | some g => some g
      | none => firstWindow4 cs

/-- Modelled from the claim: the simpler extractor returning the integer
value of the first contiguous four-digit digit sequence of the text form,
absent when the input is missing or has no such sequence. -/
def simple_extract_years (v : Value) : Option Int :=
  if isna v then none
  else (firstWindow4 (pyStr v)).map digitsVal

/-- Parser states of the CSV record scanner: inside an unquoted field,
inside a quoted field, or just after a closing quote (where a second quote
is an escaped quote character). -/
inductive PState where
  | plain
  | quoted
  | closed
deriving DecidableEq

/-- Close the field under construction and the row under construction into
one finished record (accumulators are kept reversed). -/
def flushRow (cur : List Char) (row : List (List Char)) : List (List Char) :=
  (cur.reverse :: row).reverse

/-- Character-level CSV record scanner (RFC-4180 with `,` delimiter, `"`
quote, doubled-quote escapes, `\n` record separator).  Accumulators: the
current field and current row, reversed, and the finished records,
reversed; the end of input closes the pending record. -/
def parseAux : List Char → PState → List Char → List (List Char) →
    List (List (List Char)) → List (List (List Char))
  | [], _, cur, row, rows => (flushRow cur row :: rows).reverse
  | c :: cs, .quoted, cur, row, rows =>
      if c = '"' then parseAux cs .closed cur row rows
      else parseAux cs .quoted (c :: cur) row rows
  | c :: cs, .closed, cur, row, rows =>
      if c = '"' then parseAux cs .quoted ('"' :: cur) row rows
      else if c = ',' then parseAux cs .plain [] (cur.reverse :: row) rows
      else if c = '\n' then parseAux cs .plain [] [] (flushRow cur row :: rows)
      else parseAux cs .plain (c :: cur) row rows
  | c :: cs, .plain, cur, row, rows =>
      if c = '"' then parseAux cs .quoted cur row rows
      else if c = ',' then parseAux cs .plain [] (cur.reverse :: row) rows
      else if c = '\n' then parseAux cs .plain [] [] (flushRow cur row :: rows)
      else parseAux cs .plain (c :: cur) row rows

/-- The records of a CSV text. -/
def parseCsvRecords (content : List Char) : List (List (List Char)) :=
  parseAux content .plain [] [] []

/-- Quote-state scanner matching `parseAux`: the parser state reached after
consuming the characters (field and row content ignored). -/
def scanState : List Char → PState → PState
  | [], st => st
  | c :: cs, .quoted => scanState cs (if c = '"' then .closed else .quoted)
  | c :: cs, .closed => scanState cs (if c = '"' then .quoted else .plain)
  | c :: cs, .plain => scanState cs (if c = '"' then .quoted else .plain)

/-- Minimal-quoting test: a written field is quoted when it contains the
delimiter, the quote character, or a line-break character. -/
def needsQuote (s : List Char) : Bool :=
  s.any (fun c => c = ',' || c = '"' || c = '\n' || c = '\r')

/-- Double every quote character (the escape used inside quoted fields). -/
def escQ : List Char → List Char
  | [] => []
  | c :: cs => if c = '"' then '"' :: '"' :: escQ cs else c :: escQ cs

/-- Encode one field with minimal quoting. -/
def encField (s : List Char) : List Char :=
  if needsQuote s then '"' :: (escQ s ++ ['"']) else s

/-- Encode one record: encoded fields joined by the delimiter. -/
def encRow : List (List Char) → List Char
  | [] => []
  | [f] => encField f
  | f :: fs => encField f ++ ',' :: encRow fs

/-- Join lines with a newline separator (no trailing newline). -/
def joinLines : List (List Char) → List Char
  | [] => []
  | [l] => l
  | l :: ls => l ++ '\n' :: joinLines ls

/-- Encode a list of records as CSV text. -/
def encFile (rs : List (List (List Char))) : List Char :=
  joinLines (rs.map encRow)

/-- Text a cell gets in the written CSV: missing prints as empty, numbers
via `str`, strings as themselves. -/
def csvCell : Value → List Char
  | .null => []
  | .num n => intChars n
  | .str s => s.data

/-- Models `DataFrame.to_csv(..., index=False)`: the header record followed
by one record per row. -/
def to_csv (header : List String) (rows : List (List Value)) : List Char :=
  encFile ((header.map String.data) :: rows.map (fun r => r.map csvCell))

/-- Typing of a reloaded CSV cell (only the shape of the reloaded frame
matters to the claims; an empty field reloads as missing). -/
def cellValue (s : List Char) : Value :=
  if s = [] then .null
  else if s.all Char.isDigit then .num (digitsVal s)
  else .str (String.mk s)

/-- Models `pd.read_csv` on CSV text: the first record is the header, the
rest are the rows. -/
def read_csv (content : List Char) : DataFrame :=
  match parseCsvRecords content with
  | [] => ⟨[], []⟩
  | hd :: tl => ⟨hd.map (fun c => String.mk c), tl.map (fun r => r.map cellValue)⟩

/-- The literal quoted header token `"occurrence_no"` searched for by the
loader. -/
def headerToken : List Char := "\"occurrence_no\"".data

/-- Does a line start with the header token? -/
def startsToken (l : List Char) : Bool := startsWithL headerToken l

/-- Index of the first line starting with the header token, if any (the
loader's scan loop with its `break`). -/
def headerRowAux : List (List Char) → Option Nat
  | [] => none
  | l :: ls => if startsToken l then some 0 else (headerRowAux ls).map (· + 1)

/-- Models the `header_row` scan: the first matching line's index, silently
defaulting to 0 when no line matches. -/
def header_row (lines : List (List Char)) : Nat :=
  (headerRowAux lines).getD 0

/-- Models the loader: find the header row among the file's lines, then
read the CSV from that line on (`skiprows=header_row`). -/
def load (lines : List (List Char)) : DataFrame :=
  read_csv (joinLines (lines.drop (header_row lines)))

/-- Both coordinates present (the `pd.notna(lat) and pd.notna(lng)` guard). -/
def bothCoords (header : List String) (r : List Value) : Bool :=
  !isna (lookupCol header r "lat") && !isna (lookupCol header r "lng")

/-- Acceptance of Python `float()` on decimal literals: optional surrounding
whitespace, optional sign, digits with at most one dot (at least one digit),
optional exponent.  (`inf`, `nan` and underscore separators are not
modelled; no claim depends on them.) -/
def mantOk (m : List Char) : Bool :=
  let p := m.span Char.isDigit
  match p.2 with
  | [] => !p.1.isEmpty
  | '.' :: c => c.all Char.isDigit && (!p.1.isEmpty || !c.isEmpty)
  | _ => false

/-- Exponent part of a float literal (possibly absent). -/
def expOk : List Char → Bool
  | [] => true
  | e :: rest =>
      (e = 'e' || e = 'E') &&
      (let r2 := match rest with
        | c :: r => if c = '+' || c = '-' then r else c :: r
        | [] => []
       !r2.isEmpty && r2.all Char.isDigit)

/-- Float-literal recognizer (see `mantOk`). -/
def floatLit (s : List Char) : Bool :=
  let t := ((s.dropWhile isWsChar).reverse.dropWhile isWsChar).reverse
  let t2 := match t with
    | c :: r => if c = '+' || c = '-' then r else c :: r
    | [] => []
  let p := t2.span (fun c => c.isDigit || c = '.')
  mantOk p.1 && expOk p.2

/-- Does `float()` succeed on this cell?  Numbers convert; strings convert
when they are decimal literals; the missing value is never passed (guarded
by `pd.notna`). -/
def floatable : Value → Bool
  | .num _ => true
  | .str s => floatLit s.data
  | .null => false

/-- Result of the map builder: markers placed, saved output path (if any),
and whether its `except` branch logged an error. -/
structure MapResult where
  validLocations : Nat
  saved : Option String
  errorLogged : Bool
deriving DecidableEq

/-- The fixed map output path. -/
def mapPath : String := "outputs/trex_locations.html"

/-- Marker loop of `create_fossil_map`: rows with a missing coordinate are
skipped; a present but unparseable coordinate raises (the `float()` call),
which aborts the body with an error. -/
def mapBody (header : List String) : List (List Value) → Except Unit Nat
  | [] => .ok 0
  | r :: rs =>
      if bothCoords header r then
        if floatable (lookupCol header r "lat") && floatable (lookupCol header r "lng") then
          match mapBody header rs with
          | .ok n => .ok (n + 1)
          | .error e => .error e
        else .error ()
      else mapBody header rs

/-- Models `create_fossil_map`: run the marker loop and save the map; any
internal failure is caught and logged, and nothing is saved in that case. -/
def create_fossil_map (header : List String) (records : List (List Value)) : MapResult :=
  match mapBody header records with
  | .ok n => ⟨n, some mapPath, false⟩
  | .error _ => ⟨0, none, true⟩

/-- Result of the timeline builder: whether the no-years warning fired and
the saved output path (if any). -/
structure TimelineResult where
  warned : Bool
  saved : Option String
deriving DecidableEq

/-- The fixed timeline output path. -/
def timelinePath : String := "outputs/trex_timeline.png"

/-- The `years` list of `create_discovery_timeline`: extracted years kept by
the truthiness test `if year:` (which drops both absent and zero). -/
def truthyYears (header : List String) (records : List (List Value)) : List Int :=
  records.filterMap (fun r =>
    match extract_years (lookupCol header r "collection_dates") with
    | some y => if y = 0 then none else some y
    | none => none)

/-- Models `create_discovery_timeline`: with no usable years, warn and save
nothing; otherwise render and save the bar chart. -/
def create_discovery_timeline (header : List String) (records : List (List Value)) :
    TimelineResult :=
  if truthyYears header records = [] then ⟨true, none⟩
  else ⟨false, some timelinePath⟩

/-- Observable outcome of the tail of the script (visualizations plus the
final CSV write). -/
structure RunResult where
  mapRes : Option MapResult
  timelineRes : Option TimelineResult
  csvSaved : Option String
deriving DecidableEq

/-- The fixed filtered-CSV output path. -/
def outputCsvPath : String := "outputs/trex_analysis.csv"

/-- Models lines 254-264 of the script: run both builders when the filtered
frame is non-empty, then write the filtered rows to the output CSV
unconditionally. -/
def runTail (df : DataFrame) : RunResult :=
  let records := trex_records df
  let vis :=
    if records.isEmpty then ((none : Option MapResult), (none : Option TimelineResult))
    else (some (create_fossil_map df.header records),
          some (create_discovery_timeline df.header records))
  ⟨vis.1, vis.2, some outputCsvPath⟩

/-!
## Theorems

One theorem per claim of the specification, with shared helper lemmas.
-/

theorem headerRowAux_eq_none (lines : List (List Char))
    (h : ∀ l ∈ lines, startsToken l = false) : headerRowAux lines = none := by
  induction lines with
  | nil => rfl
  | cons l ls ih =>
      simp [headerRowAux, h l (List.mem_cons_self _ _),
        ih (fun l' hl' => h l' (List.mem_cons_of_mem _ hl'))]

theorem searchO_none_mono {f g : List Char → Option (List Char)}
    (hfg : ∀ l, f l = none → g l = none) :
    ∀ l, searchO f l = none → searchO g l = none := by
  intro l
  induction l with
  | nil => intro h; exact hfg [] h
  | cons c cs ih =>
      intro h
      simp only [searchO] at h ⊢
      cases hf : f (c :: cs) with
      | some g0 => rw [hf] at h; exact Option.noConfusion h
      | none =>
          rw [hf] at h
          rw [hfg _ hf]
          exact ih h

theorem try2At_none {l : List Char} (h : try1At l = none) : try2At l = none := by
  have h' : digit4 l = none := h
  simp [try2At, h']

theorem try3At_none {l : List Char} (h : try1At l = none) : try3At l = none := by
  have h' : digit4 l = none := h
  simp [try3At, h']

theorem try4At_none {l : List Char} (h : try1At l = none) : try4At l = none := by
  have h' : digit4 l = none := h
  simp [try4At, h']

theorem firstWindow4_eq (l : List Char) : firstWindow4 l = searchO try1At l := by
  induction l with
  | nil => rfl
  | cons c cs ih =>
      have ht : try1At (c :: cs) = digit4 (c :: cs) := rfl
      simp only [firstWindow4, searchO, ht]
      cases hd : digit4 (c :: cs) <;> simp [hd, ih]

/-- Claim C2: the year extractor returns absent on a missing value and on
text matched by none of the patterns, and otherwise the first captured
four-digit year as an integer; in particular the six listed cases. -/
theorem claim_c2 :
    (extract_years (Value.str "1990") = some 1990 ∧
     extract_years (Value.str "1990-1992") = some 1990 ∧
     extract_years (Value.str "1990–1992") = some 1990 ∧
     extract_years (Value.str "1990, summer") = some 1990 ∧
     extract_years (Value.str "unknown") = none ∧
     extract_years Value.null = none) ∧
    (∀ v : Value, isna v = true → extract_years v = none) ∧
    (∀ s : String,
      searchO try1At s.data = none → searchO try2At s.data = none →
      searchO try3At s.data = none → searchO try4At s.data = none →
      extract_years (Value.str s) = none) ∧
    (∀ (s : String) (g : List Char), searchO try1At s.data = some g →
      extract_years (Value.str s) = some (digitsVal g)) := by
  refine ⟨by decide, ?_, ?_, ?_⟩
  · intro v h
    simp [extract_years, h]
  · intro s h1 h2 h3 h4
    simp [extract_years, isna, pyStr, h1, h2, h3, h4]
  · intro s g h1
    simp [extract_years, isna, pyStr, h1]

/-- Witness for C2: the null, no-match and first-capture hypotheses each
discharged at a concrete input. -/
theorem claim_c2_witness :
    extract_years Value.null = none ∧
    extract_years (Value.str "no year here") = none ∧
    extract_years (Value.str "ca. 1902, spring") = some (digitsVal ['1', '9', '0', '2']) :=
  ⟨claim_c2.2.1 Value.null (by decide),
   claim_c2.2.2.1 "no year here" (by decide) (by decide) (by decide) (by decide),
   claim_c2.2.2.2 "ca. 1902, spring" ['1', '9', '0', '2'] (by decide)⟩

/-- Claim C4: the cell match predicate is false on every non-text value,
and on text it is exactly the four-pattern search of the lower-cased text;
the three listed literal cases hold. -/
theorem claim_c4 :
    (∀ v : Value, isStrVal v = false → contains_trex v = false) ∧
    (∀ s : String, contains_trex (Value.str s) = true ↔
      (searchB p1At (lowerStr s.data) = true ∨ searchB p2At (lowerStr s.data) = true ∨
       searchB p3At (lowerStr s.data) = true ∨ searchB p4At (lowerStr s.data) = true)) ∧
    contains_trex (Value.str "Tyrannosaurus rex") = true ∧
    contains_trex (Value.str "T-Rex") = true ∧
    contains_trex (Value.str "Triceratops") = false := by
  refine ⟨?_, ?_, by decide, by decide, by decide⟩
  · intro v h
    cases v with
    | str s => simp [isStrVal] at h
    | num n => rfl
    | null => rfl
  · intro s
    simp only [contains_trex, Bool.or_eq_true]
    tauto

/-- Witness for C4: the non-text hypothesis discharged on a number and on
the missing value. -/
theorem claim_c4_witness :
    contains_trex (Value.num 7) = false ∧ contains_trex Value.null = false :=
  ⟨claim_c4.1 (Value.num 7) rfl, claim_c4.1 Value.null rfl⟩

/-- Claim C6: when no line starts with the quoted header token the loader
does not raise: the header offset silently defaults to 0 and the file is
parsed from its first line. -/
theorem claim_c6 (lines : List (List Char)) (h : ∀ l ∈ lines, startsToken l = false) :
    header_row lines = 0 ∧ load lines = read_csv (joinLines lines) := by
  have h0 : header_row lines = 0 := by
    simp [header_row, headerRowAux_eq_none lines h]
  exact ⟨h0, by simp [load, h0]⟩

/-- Witness for C6 at a concrete two-line file without the token. -/
theorem claim_c6_witness :
    header_row (["alpha", "beta"].map String.data) = 0 ∧
    load (["alpha", "beta"].map String.data) =
      read_csv (joinLines (["alpha", "beta"].map String.data)) :=
  claim_c6 _ (by decide)

/-- Claim C7: with no extractable year the timeline builder warns and saves
no image; with at least one valid (non-zero) year it saves the bar chart to
the fixed path without warning. -/
theorem claim_c7 (header : List String) (records : List (List Value)) :
    ((∀ r ∈ records, extract_years (lookupCol header r "collection_dates") = none) →
      (create_discovery_timeline header records).saved = none ∧
      (create_discovery_timeline header records).warned = true) ∧
    ((∃ r ∈ records, ∃ y : Int,
        extract_years (lookupCol header r "collection_dates") = some y ∧ y ≠ 0) →
      (create_discovery_timeline header records).saved = some timelinePath ∧
      (create_discovery_timeline header records).warned = false) := by
  constructor
  · intro h
    have hy : truthyYears header records = [] := by
      rw [truthyYears, List.filterMap_eq_nil_iff]
      intro r hr
      rw [h r hr]
    simp [create_discovery_timeline, hy]
  · rintro ⟨r, hr, y, hy, hy0⟩
    have hmem : y ∈ truthyYears header records := by
      rw [truthyYears, List.mem_filterMap]
      exact ⟨r, hr, by rw [hy]; simp [hy0]⟩
    have hne : truthyYears header records ≠ [] := List.ne_nil_of_mem hmem
    simp [create_discovery_timeline, hne]

/-- Witness for C7: both branches at concrete one-row tables. -/
theorem claim_c7_witness :
    ((create_discovery_timeline ["collection_dates"] [[Value.str "no date"]]).saved = none ∧
     (create_discovery_timeline ["collection_dates"] [[Value.str "no date"]]).warned = true) ∧
    ((create_discovery_timeline ["collection_dates"] [[Value.str "summer 1990"]]).saved =
        some timelinePath ∧
     (create_discovery_timeline ["collection_dates"] [[Value.str "summer 1990"]]).warned =
        false) :=
  ⟨(claim_c7 _ _).1 (by decide),
   (claim_c7 _ _).2 ⟨[Value.str "summer 1990"], by decide, 1990, by decide, by decide⟩⟩

/-- Claim C8: a failing map-builder body is caught inside the builder
(error logged, nothing saved), and the filtered rows are written to the
fixed CSV path regardless. -/
theorem claim_c8 (df : DataFrame) :
    (runTail df).csvSaved = some outputCsvPath ∧
    ((mapBody df.header (trex_records df)).isOk = false →
      (create_fossil_map df.header (trex_records df)).errorLogged = true ∧
      (create_fossil_map df.header (trex_records df)).saved = none ∧
      (runTail df).csvSaved = some outputCsvPath) := by
  have hcsv : (runTail df).csvSaved = some outputCsvPath := rfl
  refine ⟨hcsv, ?_⟩
  intro h
  cases hm : mapBody df.header (trex_records df) with
  | ok n => rw [hm] at h; simp [Except.isOk, Except.toBool] at h
  | error e =>
      exact ⟨by simp [create_fossil_map, hm], by simp [create_fossil_map, hm], hcsv⟩

/-- Witness for C8: a matched row whose latitude is a non-numeric string
makes the map body fail; the failure is caught and the CSV still written. -/
theorem claim_c8_witness :
    (create_fossil_map
        (DataFrame.mk ["genus", "lat", "lng"] [[Value.str "t-rex", Value.str "abc", Value.num 2]]).header
        (trex_records
          (DataFrame.mk ["genus", "lat", "lng"] [[Value.str "t-rex", Value.str "abc", Value.num 2]]))).errorLogged =
      true ∧
    (create_fossil_map
        (DataFrame.mk ["genus", "lat", "lng"] [[Value.str "t-rex", Value.str "abc", Value.num 2]]).header
        (trex_records
          (DataFrame.mk ["genus", "lat", "lng"] [[Value.str "t-rex", Value.str "abc", Value.num 2]]))).saved =
      none ∧
    (runTail
        (DataFrame.mk ["genus", "lat", "lng"] [[Value.str "t-rex", Value.str "abc", Value.num 2]])).csvSaved =
      some outputCsvPath :=
  (claim_c8 _).2 (by decide)

theorem mapBody_eq_ok (header : List String) (records : List (List Value))
    (h : ∀ r ∈ records, bothCoords header r = true →
      (floatable (lookupCol header r "lat") && floatable (lookupCol header r "lng")) = true) :
    mapBody header records = .ok (records.countP (bothCoords header)) := by
  induction records with
  | nil => rfl
  | cons r rs ih =>
      have hrs : ∀ r' ∈ rs, bothCoords header r' = true →
          (floatable (lookupCol header r' "lat") && floatable (lookupCol header r' "lng")) =
            true :=
        fun r' hr' => h r' (List.mem_cons_of_mem _ hr')
      cases hb : bothCoords header r with
      | true =>
          simp [mapBody, hb, h r (List.mem_cons_self _ _) hb, ih hrs, List.countP_cons]
      | false => simp [mapBody, hb, ih hrs, List.countP_cons]

/-- Counterexample to C1 as stated: on a table whose single row has a null
latitude, no row has both coordinates, yet the map file is saved (the save
is unconditional in the code). -/
theorem claim_c1_counterexample :
    (create_fossil_map ["lat", "lng"] [[Value.null, Value.num 5]]).saved = some mapPath ∧
    ([[Value.null, Value.num 5]].countP (bothCoords ["lat", "lng"])) = 0 := by
  decide

/-- Claim C1 (amended): the map builder skips every row with a null
latitude or longitude without raising (no error is logged and exactly the
rows with both coordinates become markers), and — provided the present
coordinates parse as floats — it saves the map file unconditionally, even
when zero rows have both coordinates. -/
theorem claim_c1_amended (header : List String) (records : List (List Value))
    (h : ∀ r ∈ records, bothCoords header r = true →
      (floatable (lookupCol header r "lat") && floatable (lookupCol header r "lng")) = true) :
    (create_fossil_map header records).errorLogged = false ∧
    (create_fossil_map header records).validLocations = records.countP (bothCoords header) ∧
    (create_fossil_map header records).saved = some mapPath := by
  simp [create_fossil_map, mapBody_eq_ok header records h]

/-- Witness for C1 (amended): one coordinate row and one null row; the null
row is skipped, one marker is placed, the map is saved. -/
theorem claim_c1_witness :
    (create_fossil_map ["lat", "lng"]
        [[Value.num 4, Value.num 5], [Value.null, Value.num 6]]).errorLogged = false ∧
    (create_fossil_map ["lat", "lng"]
        [[Value.num 4, Value.num 5], [Value.null, Value.num 6]]).validLocations =
      ([[Value.num 4, Value.num 5], [Value.null, Value.num 6]].countP
        (bothCoords ["lat", "lng"])) ∧
    (create_fossil_map ["lat", "lng"]
        [[Value.num 4, Value.num 5], [Value.null, Value.num 6]]).saved = some mapPath :=
  claim_c1_amended _ _ (by decide)

/-- Claim C10: the year extractor coincides with the simpler first
four-digit-window extractor, and whenever the first pattern finds nothing
the other three patterns find nothing either. -/
theorem claim_c10 :
    (∀ v : Value, extract_years v = simple_extract_years v) ∧
    (∀ s : List Char, searchO try1At s = none →
      searchO try2At s = none ∧ searchO try3At s = none ∧ searchO try4At s = none) := by
  have h2 : ∀ s, searchO try1At s = none → searchO try2At s = none :=
    searchO_none_mono (fun l => try2At_none)
  have h3 : ∀ s, searchO try1At s = none → searchO try3At s = none :=
    searchO_none_mono (fun l => try3At_none)
  have h4 : ∀ s, searchO try1At s = none → searchO try4At s = none :=
    searchO_none_mono (fun l => try4At_none)
  refine ⟨?_, fun s h => ⟨h2 s h, h3 s h, h4 s h⟩⟩
  intro v
  cases hv : isna v with
  | false =>
      have hs := firstWindow4_eq (pyStr v)
      cases h1 : searchO try1At (pyStr v) with
      | some g => simp [extract_years, simple_extract_years, hv, h1, hs]
      | none =>
          simp [extract_years, simple_extract_years, hv, h1, h2 _ h1, h3 _ h1, h4 _ h1, hs]
  | true => simp [extract_years, simple_extract_years, hv]

/-- Witness for C10: the refinement at a concrete matched input and the
pattern-subsumption at a concrete unmatched input. -/
theorem claim_c10_witness :
    extract_years (Value.str "born 1802, died") =
      simple_extract_years (Value.str "born 1802, died") ∧
    searchO try2At "abcd".data = none :=
  ⟨claim_c10.1 (Value.str "born 1802, died"), (claim_c10.2 "abcd".data (by decide)).1⟩

theorem any_map_general {α β : Type} (l : List α) (f : α → β) (p : β → Bool) :
    (l.map f).any p = l.any (fun a => p (f a)) := by
  induction l with
  | nil => rfl
  | cons a l ih => simp [ih]

theorem trex_mask_getD (df : DataFrame) (i : Nat) (hi : i < df.rows.length) :
    (trex_mask df).getD i false = rowMatch df.header (df.rows.getD i []) := by
  have hcol : ∀ c : String,
      ((colVals df c).map contains_trex).getD i false =
        contains_trex (lookupCol df.header (df.rows.getD i []) c) := by
    intro c
    rw [colVals, List.map_map, List.getD_eq_getElem?_getD, List.getElem?_map,
      List.getElem?_eq_getElem hi]
    simp [List.getD_eq_getElem?_getD, List.getElem?_eq_getElem hi]
  rw [trex_mask, List.getD_eq_getElem?_getD, List.getElem?_map, List.getElem?_range hi]
  simp only [Option.map_some', Option.getD_some]
  rw [boolCols, any_map_general, rowMatch]
  simp only [hcol]

/-- Claim C5: an entry of the match mask is true exactly when some fixed
candidate column of that row satisfies the cell-level match predicate. -/
theorem claim_c5 (df : DataFrame) (i : Nat) (hi : i < df.rows.length) :
    (trex_mask df).getD i false = true ↔
    ∃ c ∈ taxonomic_columns,
      contains_trex (lookupCol df.header (df.rows.getD i []) c) = true := by
  rw [trex_mask_getD df i hi, rowMatch, List.any_eq_true]

/-- Witness for C5 at a concrete two-column table and row index 0. -/
theorem claim_c5_witness :
    (trex_mask (DataFrame.mk ["occurrence_no", "genus"]
        [[Value.num 1, Value.str "Tyrannosaurus"]])).getD 0 false = true ↔
    ∃ c ∈ taxonomic_columns,
      contains_trex (lookupCol ["occurrence_no", "genus"]
        ([[Value.num 1, Value.str "Tyrannosaurus"]].getD 0 []) c) = true :=
  claim_c5 (DataFrame.mk ["occurrence_no", "genus"]
    [[Value.num 1, Value.str "Tyrannosaurus"]]) 0 (by decide)

theorem parse_eof (st : PState) (cur : List Char) (row : List (List Char))
    (rows : List (List (List Char))) :
    parseAux [] st cur row rows = (flushRow cur row :: rows).reverse := by
  cases st <;> rfl

theorem parse_newline (st : PState) (h : st ≠ PState.quoted) (cs : List Char)
    (cur : List Char) (row : List (List Char)) (rows : List (List (List Char))) :
    parseAux ('\n' :: cs) st cur row rows =
      parseAux cs .plain [] [] (flushRow cur row :: rows) := by
  cases st with
  | plain => simp [parseAux]
  | quoted => exact absurd rfl h
  | closed => simp [parseAux]

theorem parse_comma (st : PState) (h : st ≠ PState.quoted) (cs : List Char)
    (cur : List Char) (row : List (List Char)) (rows : List (List (List Char))) :
    parseAux (',' :: cs) st cur row rows =
      parseAux cs .plain [] (cur.reverse :: row) rows := by
  cases st with
  | plain => simp [parseAux]
  | quoted => exact absurd rfl h
  | closed => simp [parseAux]

theorem parse_line_step (l : List Char) :
    ∀ (st : PState) (cur : List Char) (row : List (List Char)),
      '\n' ∉ l → scanState l st ≠ PState.quoted →
      ∃ st2 cur2 row2, st2 ≠ PState.quoted ∧
        ∀ (rest : List Char) (rows : List (List (List Char))),
          parseAux (l ++ rest) st cur row rows = parseAux rest st2 cur2 row2 rows := by
  induction l with
  | nil =>
      intro st cur row _ hsc
      exact ⟨st, cur, row, by simpa [scanState] using hsc, fun rest rows => rfl⟩
  | cons c cs ih =>
      intro st cur row hnl hsc
      have hnl' : '\n' ∉ cs := fun h => hnl (List.mem_cons_of_mem _ h)
      have hcn : c ≠ '\n' := fun h => hnl (by rw [h]; exact List.mem_cons_self _ _)
      cases st with
      | quoted =>
          by_cases hc : c = '"'
          · subst hc
            have hsc' : scanState cs PState.closed ≠ PState.quoted := by
              simpa [scanState] using hsc
            obtain ⟨st2, cur2, row2, h2, heq⟩ := ih PState.closed cur row hnl' hsc'
            exact ⟨st2, cur2, row2, h2, fun rest rows => by
              simpa [parseAux] using heq rest rows⟩
          · have hsc' : scanState cs PState.quoted ≠ PState.quoted := by
              simpa [scanState, hc] using hsc
            obtain ⟨st2, cur2, row2, h2, heq⟩ := ih PState.quoted (c :: cur) row hnl' hsc'
            exact ⟨st2, cur2, row2, h2, fun rest rows => by
              simpa [parseAux, hc] using heq rest rows⟩
      | closed =>
          by_cases hc : c = '"'
          · subst hc
            have hsc' : scanState cs PState.quoted ≠ PState.quoted := by
              simpa [scanState] using hsc
            obtain ⟨st2, cur2, row2, h2, heq⟩ := ih PState.quoted ('"' :: cur) row hnl' hsc'
            exact ⟨st2, cur2, row2, h2, fun rest rows => by
              simpa [parseAux] using heq rest rows⟩
          · by_cases hcc : c = ','
            · subst hcc
              have hsc' : scanState cs PState.plain ≠ PState.quoted := by
                simpa [scanState] using hsc
              obtain ⟨st2, cur2, row2, h2, heq⟩ :=
                ih PState.plain [] (cur.reverse :: row) hnl' hsc'
              exact ⟨st2, cur2, row2, h2, fun rest rows => by
                simpa [parseAux] using heq rest rows⟩
            · have hsc' : scanState cs PState.plain ≠ PState.quoted := by
                simpa [scanState, hc] using hsc
              obtain ⟨st2, cur2, row2, h2, heq⟩ := ih PState.plain (c :: cur) row hnl' hsc'
              exact ⟨st2, cur2, row2, h2, fun rest rows => by
                simpa [parseAux, hc, hcc, hcn] using heq rest rows⟩
      | plain =>
          by_cases hc : c = '"'
          · subst hc
            have hsc' : scanState cs PState.quoted ≠ PState.quoted := by
              simpa [scanState] using hsc
            obtain ⟨st2, cur2, row2, h2, heq⟩ := ih PState.quoted cur row hnl' hsc'
            exact ⟨st2, cur2, row2, h2, fun rest rows => by
              simpa [parseAux] using heq rest rows⟩
          · by_cases hcc : c = ','
            · subst hcc
              have hsc' : scanState cs PState.plain ≠ PState.quoted := by
                simpa [scanState] using hsc
              obtain ⟨st2, cur2, row2, h2, heq⟩ :=
                ih PState.plain [] (cur.reverse :: row) hnl' hsc'
              exact ⟨st2, cur2, row2, h2, fun rest rows => by
                simpa [parseAux] using heq rest rows⟩
            · have hsc' : scanState cs PState.plain ≠ PState.quoted := by
                simpa [scanState, hc] using hsc
              obtain ⟨st2, cur2, row2, h2, heq⟩ := ih PState.plain (c :: cur) row hnl' hsc'
              exact ⟨st2, cur2, row2, h2, fun rest rows => by
                simpa [parseAux, hc, hcc, hcn] using heq rest rows⟩

theorem parse_join_length (ls : List (List Char)) :
    (∀ l ∈ ls, '\n' ∉ l) → (∀ l ∈ ls, scanState l .plain ≠ PState.quoted) → ls ≠ [] →
    ∀ rows : List (List (List Char)),
      (parseAux (joinLines ls) .plain [] [] rows).length = rows.length + ls.length := by
  induction ls with
  | nil => intro _ _ hne; exact absurd rfl hne
  | cons l ls ih =>
      intro hnl hsc _ rows
      cases ls with
      | nil =>
          obtain ⟨st2, cur2, row2, _, heq⟩ :=
            parse_line_step l .plain [] []
              (hnl l (List.mem_cons_self _ _)) (hsc l (List.mem_cons_self _ _))
          have hj : joinLines [l] = l ++ [] := by simp [joinLines]
          rw [hj, heq [] rows, parse_eof]
          simp
      | cons l2 ls' =>
          obtain ⟨st2, cur2, row2, h2, heq⟩ :=
            parse_line_step l .plain [] []
              (hnl l (List.mem_cons_self _ _)) (hsc l (List.mem_cons_self _ _))
          have hj : joinLines (l :: l2 :: ls') = l ++ '\n' :: joinLines (l2 :: ls') := rfl
          rw [hj, heq ('\n' :: joinLines (l2 :: ls')) rows, parse_newline st2 h2]
          have := ih (fun x hx => hnl x (List.mem_cons_of_mem _ hx))
            (fun x hx => hsc x (List.mem_cons_of_mem _ hx)) (by simp)
            (flushRow cur2 row2 :: rows)
          rw [this]
          simp
          omega

/-- Claim C3: for a file whose first three lines are metadata (and do not
start with the quoted token), whose fourth line starts with the token, and
whose lines are newline-free, non-blank and quote-balanced, the loaded
table has exactly (total lines - 4) rows. -/
theorem claim_c3 (lines : List (List Char))
    (hnl : ∀ l ∈ lines, '\n' ∉ l)
    (hbal : ∀ l ∈ lines, scanState l .plain ≠ PState.quoted)
    (hblank : ∀ l ∈ lines.drop 3, l ≠ [])
    (hlen : 4 ≤ lines.length)
    (hmeta : ∀ l ∈ lines.take 3, startsToken l = false)
    (hhead : startsToken (lines.getD 3 []) = true) :
    (load lines).rows.length = lines.length - 4 := by
  match lines, hlen with
  | l0 :: l1 :: l2 :: l3 :: tl, _ =>
    have hm0 : startsToken l0 = false := hmeta l0 (by simp)
    have hm1 : startsToken l1 = false := hmeta l1 (by simp)
    have hm2 : startsToken l2 = false := hmeta l2 (by simp)
    have hh3 : startsToken l3 = true := by simpa [List.getD] using hhead
    have hrow : header_row (l0 :: l1 :: l2 :: l3 :: tl) = 3 := by
      simp [header_row, headerRowAux, hm0, hm1, hm2, hh3]
    have hdrop : (l0 :: l1 :: l2 :: l3 :: tl).drop 3 = l3 :: tl := rfl
    have hlen2 : (parseCsvRecords (joinLines (l3 :: tl))).length = tl.length + 1 := by
      have := parse_join_length (l3 :: tl)
        (fun x hx => hnl x (by simp [List.mem_cons] at hx ⊢; tauto))
        (fun x hx => hbal x (by simp [List.mem_cons] at hx ⊢; tauto))
        (by simp) []
      simpa [parseCsvRecords] using this
    rw [load, hrow, hdrop]
    cases hrec : parseCsvRecords (joinLines (l3 :: tl)) with
    | nil => rw [hrec] at hlen2; simp at hlen2
    | cons hd tl2 =>
        rw [hrec] at hlen2
        simp only [List.length_cons] at hlen2
        simp [read_csv, hrec]
        omega

/-- Witness for C3 at a concrete five-line file: three metadata lines, the
header line, one data line; the loaded table has one row. -/
theorem claim_c3_witness :
    (load (["meta one", "meta two", "junk", "\"occurrence_no\",\"genus\"",
        "1,\"a b\""].map String.data)).rows.length =
      (["meta one", "meta two", "junk", "\"occurrence_no\",\"genus\"",
        "1,\"a b\""].map String.data).length - 4 :=
  claim_c3 _ (by decide) (by decide) (by decide) (by decide) (by decide) (by decide)

theorem needsQuote_false_mem {s : List Char} (h : needsQuote s = false) :
    ∀ c ∈ s, c ≠ ',' ∧ c ≠ '"' ∧ c ≠ '\n' := by
  intro c hc
  rw [needsQuote, List.any_eq_false] at h
  have hx := h c hc
  simp at hx
  tauto

theorem parse_plainChars (s : List Char) (h : ∀ c ∈ s, c ≠ ',' ∧ c ≠ '"' ∧ c ≠ '\n') :
    ∀ (rest cur : List Char) (row : List (List Char)) (rows : List (List (List Char))),
      parseAux (s ++ rest) .plain cur row rows =
        parseAux rest .plain (s.reverse ++ cur) row rows := by
  induction s with
  | nil => intro rest cur row rows; rfl
  | cons c cs ih =>
      intro rest cur row rows
      obtain ⟨h1, h2, h3⟩ := h c (List.mem_cons_self _ _)
      have hcs := fun x hx => h x (List.mem_cons_of_mem _ hx)
      rw [List.cons_append]
      rw [show parseAux (c :: (cs ++ rest)) PState.plain cur row rows =
          parseAux (cs ++ rest) PState.plain (c :: cur) row rows from by
        simp [parseAux, h1, h2, h3]]
      rw [ih hcs rest (c :: cur) row rows]
      simp

theorem parse_escQ (s : List Char) :
    ∀ (rest cur : List Char) (row : List (List Char)) (rows : List (List (List Char))),
      parseAux (escQ s ++ rest) .quoted cur row rows =
        parseAux rest .quoted (s.reverse ++ cur) row rows := by
  induction s with
  | nil => intro rest cur row rows; rfl
  | cons c cs ih =>
      intro rest cur row rows
      by_cases hc : c = '"'
      · subst hc
        rw [show escQ ('"' :: cs) = '"' :: '"' :: escQ cs from by simp [escQ]]
        rw [List.cons_append, List.cons_append]
        rw [show parseAux ('"' :: '"' :: (escQ cs ++ rest)) PState.quoted cur row rows =
            parseAux (escQ cs ++ rest) PState.quoted ('"' :: cur) row rows from by
          simp [parseAux]]
        rw [ih rest ('"' :: cur) row rows]
        simp
      · rw [show escQ (c :: cs) = c :: escQ cs from by simp [escQ, hc]]
        rw [List.cons_append]
        rw [show parseAux (c :: (escQ cs ++ rest)) PState.quoted cur row rows =
            parseAux (escQ cs ++ rest) PState.quoted (c :: cur) row rows from by
          simp [parseAux, hc]]
        rw [ih rest (c :: cur) row rows]
        simp

theorem parse_encField (f : List Char) (rest cur : List Char) (row : List (List Char))
    (rows : List (List (List Char))) :
    ∃ st2, st2 ≠ PState.quoted ∧
      parseAux (encField f ++ rest) .plain cur row rows =
        parseAux rest st2 (f.reverse ++ cur) row rows := by
  cases hq : needsQuote f with
  | false =>
      refine ⟨.plain, by simp, ?_⟩
      simp only [encField, hq, Bool.false_eq_true, if_false]
      exact parse_plainChars f (needsQuote_false_mem hq) rest cur row rows
  | true =>
      refine ⟨.closed, by simp, ?_⟩
      simp only [encField, hq, if_true]
      rw [List.cons_append, List.append_assoc, List.singleton_append]
      rw [show parseAux ('"' :: (escQ f ++ '"' :: rest)) PState.plain cur row rows =
          parseAux (escQ f ++ '"' :: rest) PState.quoted cur row rows from by
        simp [parseAux]]
      rw [parse_escQ f ('"' :: rest) cur row rows]
      simp [parseAux]

theorem parse_encRow_newline (fs : List (List Char)) :
    fs ≠ [] →
    ∀ (rest : List Char) (row : List (List Char)) (rows : List (List (List Char))),
      parseAux (encRow fs ++ '\n' :: rest) .plain [] row rows =
        parseAux rest .plain [] [] ((row.reverse ++ fs) :: rows) := by
  induction fs with
  | nil => intro hne; exact absurd rfl hne
  | cons f fs ih =>
      intro _ rest row rows
      cases fs with
      | nil =>
          rw [show encRow [f] = encField f from rfl]
          obtain ⟨st2, h2, heq⟩ := parse_encField f ('\n' :: rest) [] row rows
          rw [heq, parse_newline st2 h2]
          simp [flushRow]
      | cons g fs' =>
          rw [show encRow (f :: g :: fs') = encField f ++ ',' :: encRow (g :: fs') from rfl]
          rw [List.append_assoc, List.cons_append]
          obtain ⟨st2, h2, heq⟩ :=
            parse_encField f (',' :: (encRow (g :: fs') ++ '\n' :: rest)) [] row rows
          rw [heq, parse_comma st2 h2]
          simp only [List.append_nil, List.reverse_reverse]
          rw [ih (by simp) rest (f :: row) rows]
          simp [List.append_assoc]

theorem parse_encRow_eof (fs : List (List Char)) :
    fs ≠ [] →
    ∀ (row : List (List Char)) (rows : List (List (List Char))),
      parseAux (encRow fs) .plain [] row rows = ((row.reverse ++ fs) :: rows).reverse := by
  induction fs with
  | nil => intro hne; exact absurd rfl hne
  | cons f fs ih =>
      intro _ row rows
      cases fs with
      | nil =>
          rw [show encRow [f] = encField f ++ [] from by simp [encRow]]
          obtain ⟨st2, h2, heq⟩ := parse_encField f [] [] row rows
          rw [heq, parse_eof]
          simp [flushRow]
      | cons g fs' =>
          rw [show encRow (f :: g :: fs') = encField f ++ ',' :: encRow (g :: fs') from rfl]
          obtain ⟨st2, h2, heq⟩ := parse_encField f (',' :: encRow (g :: fs')) [] row rows
          rw [heq, parse_comma st2 h2]
          simp only [List.append_nil, List.reverse_reverse]
          rw [ih (by simp) (f :: row) rows]
          simp [List.append_assoc]

theorem parse_encFile (rs : List (List (List Char))) :
    rs ≠ [] → (∀ r ∈ rs, r ≠ []) →
    ∀ rows : List (List (List Char)),
      parseAux (encFile rs) .plain [] [] rows = rows.reverse ++ rs := by
  induction rs with
  | nil => intro hne; exact absurd rfl hne
  | cons r rs ih =>
      intro _ hr rows
      cases rs with
      | nil =>
          rw [show encFile [r] = encRow r from rfl]
          rw [parse_encRow_eof r (hr r (List.mem_cons_self _ _)) [] rows]
          simp
      | cons r2 rs' =>
          rw [show encFile (r :: r2 :: rs') = encRow r ++ '\n' :: encFile (r2 :: rs') from rfl]
          rw [parse_encRow_newline r (hr r (List.mem_cons_self _ _)) _ [] rows]
          simp only [List.reverse_nil, List.nil_append]
          rw [ih (by simp) (fun x hx => hr x (List.mem_cons_of_mem _ hx)) (r :: rows)]
          simp

theorem trex_records_sub {df : DataFrame} {r : List Value} (h : r ∈ trex_records df) :
    r ∈ df.rows := by
  rw [trex_records, List.mem_map] at h
  obtain ⟨p, hp, rfl⟩ := h
  rw [List.mem_filter] at hp
  exact (List.of_mem_zip hp.1).1

theorem map_mk_data (hh : List String) :
    (hh.map String.data).map (fun c => String.mk c) = hh := by
  induction hh with
  | nil => rfl
  | cons s t ih => simp only [List.map_cons, ih]

/-- Claim C9: writing the mask-filtered rows to CSV and reloading that CSV
reproduces the filtered row count and the column set. -/
theorem claim_c9 (df : DataFrame) (h1 : df.header ≠ [])
    (h2 : ∀ r ∈ df.rows, r ≠ []) :
    (read_csv (to_csv df.header (trex_records df))).header = df.header ∧
    (read_csv (to_csv df.header (trex_records df))).rows.length =
      (trex_records df).length := by
  have hrecs : parseCsvRecords (to_csv df.header (trex_records df)) =
      (df.header.map String.data) :: (trex_records df).map (fun r => r.map csvCell) := by
    have hr : ∀ x ∈ (df.header.map String.data) ::
        (trex_records df).map (fun r => r.map csvCell), x ≠ [] := by
      intro x hx
      rcases List.mem_cons.mp hx with hx | hx
      · subst hx; simpa using h1
      · rw [List.mem_map] at hx
        obtain ⟨r, hrr, rfl⟩ := hx
        simpa using h2 r (trex_records_sub hrr)
    have := parse_encFile _ (by simp) hr []
    simpa [parseCsvRecords, to_csv] using this
  constructor
  · simp [read_csv, hrecs, map_mk_data]
    generalize df.header = hh
    induction hh with
    | nil => rfl
    | cons s t ih => rw [List.map_cons, ih]; rfl
  · simp [read_csv, hrecs]

/-- Witness for C9 at a concrete table: one matching and one non-matching
row; the reloaded CSV has the same header and one row. -/
theorem claim_c9_witness :
    (read_csv (to_csv (DataFrame.mk ["genus", "lat"]
        [[Value.str "t-rex", Value.null], [Value.str "dog", Value.num 3]]).header
      (trex_records (DataFrame.mk ["genus", "lat"]
        [[Value.str "t-rex", Value.null], [Value.str "dog", Value.num 3]])))).header =
      (DataFrame.mk ["genus", "lat"]
        [[Value.str "t-rex", Value.null], [Value.str "dog", Value.num 3]]).header ∧
    (read_csv (to_csv (DataFrame.mk ["genus", "lat"]
        [[Value.str "t-rex", Value.null], [Value.str "dog", Value.num 3]]).header
      (trex_records (DataFrame.mk ["genus", "lat"]
        [[Value.str "t-rex", Value.null], [Value.str "dog", Value.num 3]])))).rows.length =
      (trex_records (DataFrame.mk ["genus", "lat"]
        [[Value.str "t-rex", Value.null], [Value.str "dog", Value.num 3]])).length :=
  claim_c9 _ (by decide) (by decide)
